import Mathlib

/-!
Verification development for the streaming generation client of the
ELECTRON-prompt-builder repository.

The embedding models, over `List Char` text and `List Nat` byte streams:

* the streaming line decoder shared by the two backend clients
  (`src/lib/zai.ts` `generateStream` and the Ollama variant): a streaming
  UTF-8 text decoder (`TextDecoder` with `stream: true`), the
  line-buffer split on `'\n'`, and the per-line frame parsing
  (SSE `data: {...}` framing and whole-JSON-per-line framing),
  including a model of `JSON.parse`;
* `checkConnection` (the connectivity probe of `src/lib/zai.ts`);
* the `App.tsx` handlers: the validation gate of `handleGenerate`,
  the throttled output accumulator of the streaming loop, `handleStop`,
  and the keyboard/button session-start paths;
* the error-message mapping of the non-ok-status branches of both
  `generateStream` variants (whose messages the UI displays verbatim
  through `getErrorMessage`).
-/

set_option maxRecDepth 100000
set_option maxHeartbeats 1000000

namespace PromptBuilder

/-! ## Line splitting (`buffer.split('\n')` with `lines.pop()` kept as buffer)

`splitNlAux cur s` walks `s` accumulating the current line in `cur`;
it returns the complete (newline-terminated) lines and the trailing
segment after the last newline, exactly like the repeated
`const lines = buffer.split('\n'); buffer = lines.pop() || ''` in the source. -/

def splitNlAux : List Char → List Char → List (List Char) × List Char
  | cur, [] => ([], cur)
  | cur, c :: cs =>
    if c = '\n' then
      let r := splitNlAux [] cs
      (cur :: r.1, r.2)
    else
      splitNlAux (cur ++ [c]) cs

/-- `splitNl s` is `s.split('\n')` with the final (possibly incomplete)
segment separated out as the new buffer. -/
def splitNl (s : List Char) : List (List Char) × List Char :=
  splitNlAux [] s

/-- `joinLines ls` is the byte-free text of the lines, each terminated
by `'\n'`. -/
def joinLines (ls : List (List Char)) : List Char :=
  (ls.map (fun l => l ++ ['\n'])).flatten

/-! ## Streaming UTF-8 decoding (`new TextDecoder()` with `{ stream: true }`)

State is the byte list of the currently incomplete multi-byte sequence.
On well-formed UTF-8 the model agrees with `TextDecoder`; byte errors
produce U+FFFD replacement characters as the non-fatal decoder does. -/

/-- Expected total length of a UTF-8 sequence starting with lead byte `b`
(`0` when `b` cannot start a sequence). -/
def utf8Len (b : Nat) : Nat :=
  if b < 0x80 then 1
  else if b < 0xC0 then 0
  else if b < 0xE0 then 2
  else if b < 0xF0 then 3
  else if b < 0xF8 then 4
  else 0

def isContByte (b : Nat) : Bool :=
  decide (0x80 ≤ b) && decide (b < 0xC0)

def replChar : Char := Char.ofNat 0xFFFD

/-- Scalar value encoded by a complete UTF-8 byte sequence. -/
def seqVal : List Nat → Nat
  | [a] => a
  | [a, b] => (a - 0xC0) * 64 + (b - 0x80)
  | [a, b, c] => (a - 0xE0) * 4096 + (b - 0x80) * 64 + (c - 0x80)
  | [a, b, c, d] => (a - 0xF0) * 262144 + (b - 0x80) * 4096 + (c - 0x80) * 64 + (d - 0x80)
  | _ => 0xFFFD

/-- Process one byte arriving with an empty pending buffer. -/
def utf8Fresh (b : Nat) : List Nat × List Char :=
  if utf8Len b = 1 then ([], [Char.ofNat b])
  else if 2 ≤ utf8Len b then ([b], [])
  else ([], [replChar])

/-- One step of the streaming UTF-8 decoder. -/
def utf8Step (pending : List Nat) (b : Nat) : List Nat × List Char :=
  match pending with
  | [] => utf8Fresh b
  | p :: ps =>
    if isContByte b then
      let seq := (p :: ps) ++ [b]
      if seq.length = utf8Len p then ([], [Char.ofNat (seqVal seq)])
      else (seq, [])
    else
      let f := utf8Fresh b
      (f.1, replChar :: f.2)

/-- Feed a chunk of bytes to the streaming UTF-8 decoder:
`decoder.decode(value, { stream: true })`. -/
def utf8Push : List Nat → List Nat → List Nat × List Char
  | st, [] => (st, [])
  | st, b :: bs =>
    let r := utf8Step st b
    let s := utf8Push r.1 bs
    (s.1, r.2 ++ s.2)

/-- UTF-8 encoding of one character (the byte form `TextDecoder` receives). -/
def utf8EncodeChar (c : Char) : List Nat :=
  let n := c.toNat
  if n < 0x80 then [n]
  else if n < 0x800 then [0xC0 + n / 64, 0x80 + n % 64]
  else if n < 0x10000 then [0xE0 + n / 4096, 0x80 + n / 64 % 64, 0x80 + n % 64]
  else [0xF0 + n / 262144, 0x80 + n / 4096 % 64, 0x80 + n / 64 % 64, 0x80 + n % 64]

def utf8Encode (s : List Char) : List Nat :=
  (s.map utf8EncodeChar).flatten

/-! ## JSON values and a model of `JSON.parse`

The decoders call `JSON.parse` on each complete line (Ollama framing)
or on the part after the `"data: "` tag (SSE framing). `Json` models a
parsed value; numbers are kept as `mantissa * 10 ^ exponent`. -/

inductive Json where
  | null
  | boolean (b : Bool)
  | number (mantissa : Int) (exponent : Int)
  | str (s : List Char)
  | arr (xs : List Json)
  | obj (fields : List (List Char × Json))

/-- JSON insignificant whitespace. -/
def jsonWsChar (c : Char) : Bool :=
  c = ' ' || c = '\t' || c = '\n' || c = '\r'

def skipWs (l : List Char) : List Char :=
  l.dropWhile jsonWsChar

def hexDigitVal (c : Char) : Option Nat :=
  if '0' ≤ c ∧ c ≤ '9' then some (c.toNat - 48)
  else if 'a' ≤ c ∧ c ≤ 'f' then some (c.toNat - 87)
  else if 'A' ≤ c ∧ c ≤ 'F' then some (c.toNat - 55)
  else none

def escapeChar (e : Char) : Option Char :=
  if e = '"' then some '"'
  else if e = '\\' then some '\\'
  else if e = '/' then some '/'
  else if e = 'b' then some '\x08'
  else if e = 'f' then some '\x0C'
  else if e = 'n' then some '\n'
  else if e = 'r' then some '\r'
  else if e = 't' then some '\t'
  else none

/-- Body of a JSON string after the opening quote: returns the decoded
content and the input after the closing quote. Raw control characters
are rejected, as `JSON.parse` rejects them. -/
def parseStringBody : List Char → Option (List Char × List Char)
  | [] => none
  | '"' :: rest => some ([], rest)
  | '\\' :: 'u' :: a :: b :: c :: d :: rest => do
    let ha ← hexDigitVal a
    let hb ← hexDigitVal b
    let hc ← hexDigitVal c
    let hd ← hexDigitVal d
    let (s, r) ← parseStringBody rest
    some (Char.ofNat (((ha * 16 + hb) * 16 + hc) * 16 + hd) :: s, r)
  | '\\' :: e :: rest => do
    let c ← escapeChar e
    let (s, r) ← parseStringBody rest
    some (c :: s, r)
  | c :: rest =>
    if c.toNat < 0x20 then none
    else do
      let (s, r) ← parseStringBody rest
      some (c :: s, r)

def parseDigits : List Char → List Nat × List Char
  | [] => ([], [])
  | c :: cs =>
    if '0' ≤ c ∧ c ≤ '9' then
      let r := parseDigits cs
      ((c.toNat - 48) :: r.1, r.2)
    else ([], c :: cs)

def digitsVal (ds : List Nat) : Nat :=
  ds.foldl (fun a d => a * 10 + d) 0

def parseFrac : List Char → Option (List Nat × List Char)
  | '.' :: t =>
    match parseDigits t with
    | ([], _) => none
    | (fs, r) => some (fs, r)
  | l => some ([], l)

def parseExp : List Char → Option (Int × List Char)
  | [] => some (0, [])
  | c :: t =>
    if c = 'e' ∨ c = 'E' then
      let p : Int × List Char :=
        match t with
        | '+' :: t2 => (1, t2)
        | '-' :: t2 => (-1, t2)
        | _ => (1, t)
      match parseDigits p.2 with
      | ([], _) => none
      | (ds, r) => some (p.1 * Int.ofNat (digitsVal ds), r)
    else some (0, c :: t)

/-- JSON number grammar `-? int frac? exp?` (leading zeros rejected),
returning `(mantissa, base-10 exponent)`. -/
def parseNumber (l : List Char) : Option ((Int × Int) × List Char) :=
  let sp : Bool × List Char :=
    match l with
    | '-' :: t => (true, t)
    | _ => (false, l)
  match parseDigits sp.2 with
  | ([], _) => none
  | (d :: ds, r1) =>
    if d = 0 ∧ ds ≠ [] then none
    else
      match parseFrac r1 with
      | none => none
      | some (fs, r2) =>
        match parseExp r2 with
        | none => none
        | some (ev, r3) =>
          let m0 : Nat := digitsVal ((d :: ds) ++ fs)
          let mant : Int := if sp.1 then -(Int.ofNat m0) else Int.ofNat m0
          some ((mant, ev - Int.ofNat fs.length), r3)

mutual

def parseValue : Nat → List Char → Option (Json × List Char)
  | 0, _ => none
  | fuel + 1, l =>
    match l with
    | 'n' :: 'u' :: 'l' :: 'l' :: rest => some (.null, rest)
    | 't' :: 'r' :: 'u' :: 'e' :: rest => some (.boolean true, rest)
    | 'f' :: 'a' :: 'l' :: 's' :: 'e' :: rest => some (.boolean false, rest)
    | '"' :: rest => do
      let (s, r) ← parseStringBody rest
      some (.str s, r)
    | '[' :: rest =>
      (match skipWs rest with
      | ']' :: r2 => some (.arr [], r2)
      | r => do
        let (xs, r2) ← parseElems fuel r
        some (.arr xs, r2))
    | '{' :: rest =>
      (match skipWs rest with
      | '}' :: r2 => some (.obj [], r2)
      | r => do
        let (ms, r2) ← parseMembers fuel r
        some (.obj ms, r2))
    | _ => do
      let (mv, r) ← parseNumber l
      some (.number mv.1 mv.2, r)

def parseElems : Nat → List Char → Option (List Json × List Char)
  | 0, _ => none
  | fuel + 1, l => do
    let (v, r) ← parseValue fuel l
    match skipWs r with
    | ']' :: t => some ([v], t)
    | ',' :: t => do
      let (vs, r2) ← parseElems fuel (skipWs t)
      some (v :: vs, r2)
    | _ => none

def parseMembers : Nat → List Char → Option (List (List Char × Json) × List Char)
  | 0, _ => none
  | fuel + 1, l =>
    match l with
    | '"' :: rest => do
      let (k, r1) ← parseStringBody rest
      match skipWs r1 with
      | ':' :: r2 => do
        let (v, r3) ← parseValue fuel (skipWs r2)
        match skipWs r3 with
        | '}' :: t => some ([(k, v)], t)
        | ',' :: t => do
          let (ms, r4) ← parseMembers fuel (skipWs t)
          some ((k, v) :: ms, r4)
        | _ => none
      | _ => none
    | _ => none

end

/-- Model of `JSON.parse`: whole-input parse, surrounding whitespace
allowed, `none` on any syntax error. -/
def jsonParse (l : List Char) : Option Json :=
  let s := skipWs l
  match parseValue (2 * s.length + 2) s with
  | some (v, r) => if skipWs r = [] then some v else none
  | none => none

/-- Property lookup on an object; later duplicate keys win, as in the
object produced by `JSON.parse`. Non-objects have no properties
(`undefined`, and a thrown-and-caught `TypeError` for `null`). -/
def lookupLast (fields : List (List Char × Json)) (k : List Char) : Option Json :=
  fields.foldl (fun acc f => if f.1 = k then some f.2 else acc) none

def Json.getField (j : Json) (k : List Char) : Option Json :=
  match j with
  | .obj fs => lookupLast fs k
  | _ => none

/-- `x?.[0]` on a parsed JSON array. -/
def Json.idx0 (j : Json) : Option Json :=
  match j with
  | .arr (x :: _) => some x
  | _ => none

/-- JavaScript truthiness of a parsed JSON value (`if (content)`):
`null`, `false`, `0` and `""` are falsy; arrays and objects are truthy. -/
def Json.truthy : Json → Bool
  | .null => false
  | .boolean b => b
  | .number m _ => m ≠ 0
  | .str s => s ≠ []
  | .arr _ => true
  | .obj _ => true

/-! ## Per-line frame parsing of the two decoders -/

/-- JavaScript `String.prototype.trim` whitespace (the characters that
can occur in these streams). -/
def jsWsChar (c : Char) : Bool :=
  c = ' ' || c = '\t' || c = '\n' || c = '\r' || c = '\x0B' || c = '\x0C'

def jsTrim (s : List Char) : List Char :=
  ((s.dropWhile jsWsChar).reverse.dropWhile jsWsChar).reverse

def sseDataTag : List Char := "data: ".data

def sseDone : List Char := "data: [DONE]".data

/-- `json.choices?.[0]?.delta?.content` with optional chaining. -/
def sseContent (j : Json) : Option Json :=
  ((j.getField "choices".data).bind Json.idx0).bind
    (fun c => (c.getField "delta".data).bind (fun d => d.getField "content".data))

/-- Per-line behaviour of the SSE decoder loop in `zai.ts`
`generateStream`: skip blank lines and `data: [DONE]`, require the
`data: ` tag, `JSON.parse` the rest (malformed lines are skipped by the
`catch`), and yield the extracted content only when truthy. -/
def lineFragZai (line : List Char) : Option Json :=
  let trimmed := jsTrim line
  if trimmed = [] then none
  else if trimmed = sseDone then none
  else if ¬ (sseDataTag.isPrefixOf trimmed) then none
  else
    match jsonParse (trimmed.drop 6) with
    | none => none
    | some j =>
      match sseContent j with
      | none => none
      | some v => if v.truthy then some v else none

/-- Per-line behaviour of the whole-JSON-per-line decoder loop in the
Ollama `generateStream`: skip blank lines, `JSON.parse` the line
(malformed lines are skipped by the `catch`), and yield `json.response`
only when truthy. -/
def lineFragOllama (line : List Char) : Option Json :=
  if jsTrim line = [] then none
  else
    match jsonParse line with
    | none => none
    | some j =>
      match j.getField "response".data with
      | none => none
      | some v => if v.truthy then some v else none

/-! ## The streaming decoder pipeline

One `feedChunk` is one iteration of the read loop of either
`generateStream`: UTF-8-decode the chunk with carried state, append to
the line buffer, split on `'\n'`, keep the final segment as the new
buffer, and process each complete line. -/

structure DecSt where
  pending : List Nat
  buffer : List Char
deriving DecidableEq

def initDecSt : DecSt := ⟨[], []⟩

def feedChunk (frag : List Char → Option Json) (st : DecSt) (bytes : List Nat) :
    DecSt × List Json :=
  let r := utf8Push st.pending bytes
  let s := splitNl (st.buffer ++ r.2)
  (⟨r.1, s.2⟩, s.1.filterMap frag)

def feedChunks (frag : List Char → Option Json) : DecSt → List (List Nat) → DecSt × List Json
  | st, [] => (st, [])
  | st, c :: cs =>
    let r := feedChunk frag st c
    let s := feedChunks frag r.1 cs
    (s.1, r.2 ++ s.2)

/-! ## `checkConnection` (`src/lib/zai.ts`)

The probe POSTs a minimal chat completion. Its outcome is either an
HTTP status or a network/timeout exception (the 8s timeout aborts the
fetch, which surfaces as an exception caught by the `catch`). -/

inductive FetchResult where
  | status (code : Nat)
  | netError

/-- WHATWG `Response.ok`: status in the range 200–299. -/
def resOk (code : Nat) : Bool :=
  decide (200 ≤ code) && decide (code ≤ 299)

/-- `checkConnection(apiKey)`: `false` for a blank key without any
probe; otherwise `false` on 401 or exception, and
`res.ok || res.status === 400 || res.status === 429` else. -/
def checkConnection (apiKey : List Char) (res : FetchResult) : Bool :=
  if jsTrim apiKey = [] then false
  else
    match res with
    | .netError => false
    | .status code =>
      if code = 401 then false
      else resOk code || code = 400 || code = 429

/-! ## The `handleGenerate` validation gate (`src/App.tsx`) -/

inductive StartResult where
  | noop
  | errorSurfaced (msg : List Char)
  | launched
deriving DecidableEq

/-- The synchronous part of `handleGenerate` before any network call:
`if (!state.inputText.trim() || !state.model) return` silently, then the
missing-API-key check surfaces an error message, then the request
launches. -/
def handleGenerateGate (inputText model apiKey : List Char) : StartResult :=
  if jsTrim inputText = [] || model = [] then .noop
  else if jsTrim apiKey = [] then
    .errorSurfaced "Configure your Z.AI API key in Settings (gear icon) to generate prompts.".data
  else .launched

/-- Outbound requests issued synchronously by a start outcome: only a
launched generation reaches `fetch`. -/
def startNetworkCalls : StartResult → Nat
  | .launched => 1
  | _ => 0

/-! ## Session/transport lifecycle (`App.tsx` handlers)

`abortControllerRef` holds only the most recent controller.
`handleGenerate` replaces it with a fresh `AbortController` without
aborting the previous one; `handleStop` aborts only the current one.
The Generate button is disabled while `isGenerating`, but the
Cmd/Ctrl+Enter keydown handler calls `handleGenerate` unguarded.
`liveTransports` counts in-flight streams whose signal was never
aborted. -/

structure SessSt where
  isGenerating : Bool
  liveTransports : Nat
deriving DecidableEq

def initSessSt : SessSt := ⟨false, 0⟩

/-- Body of `handleGenerate` once validation passes: mark generating and
open a new transport with a fresh controller; the previous controller is
not aborted. -/
def startGeneration (st : SessSt) : SessSt :=
  { isGenerating := true, liveTransports := st.liveTransports + 1 }

/-- `handleStop`: abort the current controller (at most one transport
dies) and clear the flags. -/
def stopGeneration (st : SessSt) : SessSt :=
  { isGenerating := false, liveTransports := st.liveTransports - 1 }

inductive UiEvent where
  | clickGenerate
  | keyGenerate
  | pressEscape

/-- UI dispatch with valid input and API key present: the button is
disabled while generating; the keyboard shortcut is not. -/
def uiStep (st : SessSt) : UiEvent → SessSt
  | .clickGenerate => if st.isGenerating then st else startGeneration st
  | .keyGenerate => startGeneration st
  | .pressEscape => stopGeneration st

def uiRun (st : SessSt) (evs : List UiEvent) : SessSt :=
  evs.foldl uiStep st

/-! ## Connectivity supervisor (`checkApiKey` in `App.tsx`)

One invocation probes at most once (blank key short-circuits) and sets
the tri-state `zaiConnected`; the source contains no timer, so the list
of scheduled retry delays of a run is always empty. -/

inductive ConnState where
  | unknown
  | connected
  | disconnected
deriving DecidableEq

/-- One `checkApiKey()` run: resulting `zaiConnected` state, the number
of probes performed, and the delays of retry probes it schedules. -/
def checkApiKeyRun (apiKey : List Char) (probeOk : Bool) :
    ConnState × Nat × List Nat :=
  if jsTrim apiKey = [] then (.disconnected, 0, [])
  else ((if probeOk then .connected else .disconnected), 1, [])

/-! ## Throttled output accumulation (`handleGenerate` streaming loop)

Each yielded fragment is appended to `pendingOutputRef`; the visible
`outputText` is only refreshed when at least `UPDATE_INTERVAL_MS = 50`
elapsed since the last refresh. The completion and `AbortError` paths
and `handleStop` flush `pendingOutputRef` into `outputText`; the failure
path sets only the error message. -/

structure GenOutSt where
  outputText : List Char
  pending : List Char
  lastUpdate : Nat
deriving DecidableEq

def initGenOut : GenOutSt := ⟨[], [], 0⟩

/-- One loop iteration: fragment `ev.1` arrives at time `ev.2`. -/
def applyFragment (st : GenOutSt) (ev : List Char × Nat) : GenOutSt :=
  let pending := st.pending ++ ev.1
  if 50 ≤ ev.2 - st.lastUpdate then
    { outputText := pending, pending := pending, lastUpdate := ev.2 }
  else
    { st with pending := pending }

def runFragments (st : GenOutSt) (evs : List (List Char × Nat)) : GenOutSt :=
  evs.foldl applyFragment st

/-- Normal completion: `outputText` is set to the full accumulator. -/
def finishComplete (st : GenOutSt) : GenOutSt :=
  { st with outputText := st.pending }

/-- `AbortError` branch (and `handleStop`): `outputText` is set to the
full accumulator. -/
def finishAbort (st : GenOutSt) : GenOutSt :=
  { st with outputText := st.pending }

/-- Failure branch: only the error message is set; `outputText` is left
exactly as last rendered. -/
def finishError (st : GenOutSt) : GenOutSt :=
  st

/-! ## Error messages (`zai.ts` non-ok branches, `getErrorMessage`, and
the Ollama variant) -/

def zaiAuthMsg : String := "Invalid API key. Check your Z.AI API key in Settings."

def zaiRateSuffix : String :=
  "\n\n• Check balance: https://z.ai/manage-apikey/billing\n• Renew subscription: https://z.ai/subscribe"

def toLowerCh (c : Char) : Char :=
  if 'A' ≤ c ∧ c ≤ 'Z' then Char.ofNat (c.toNat + 32) else c

def containsSub (hay needle : List Char) : Bool :=
  hay.tails.any (fun t => needle.isPrefixOf t)

/-- `/insufficient balance|recharge|arrears|expired|quota/i.test(msg)`. -/
def quotaPattern (msg : String) : Bool :=
  ["insufficient balance", "recharge", "arrears", "expired", "quota"].any
    (fun w => containsSub (msg.data.map toLowerCh) w.data)

/-- The error thrown by `zai.ts` `generateStream` for a non-ok response,
as a function of the HTTP status and the resolved backend message
(`errObj?.error?.message || errObj?.message || response.statusText`). -/
def zaiHttpErrorMsg (status : Nat) (msg : String) : String :=
  if status = 401 then zaiAuthMsg
  else if status = 429 || quotaPattern msg then msg ++ zaiRateSuffix
  else if msg ≠ "" then msg
  else "Z.AI API returned " ++ toString status

def ollamaModel404Msg (model : String) : String :=
  "Model \"" ++ model ++ "\" not found. Please select another model."

/-- The error thrown by the Ollama `generateStream` for a non-ok
response. -/
def ollamaHttpErrorMsg (status : Nat) (model : String) : String :=
  if status = 404 then ollamaModel404Msg model
  else "Ollama returned " ++ toString status

def fragsConcat (evs : List (List Char × Nat)) : List Char :=
  (evs.map Prod.fst).flatten

/-- Spec-level probe interpretation as amended for claim C1. -/
def probeSpecAmended : FetchResult → Bool
  | .netError => false
  | .status code => if code = 401 then false else resOk code || code = 400 || code = 429

theorem splitNlAux_append (a : List Char) :
    ∀ (cur b : List Char),
      splitNlAux cur (a ++ b) =
        ((splitNlAux cur a).1 ++ (splitNlAux (splitNlAux cur a).2 b).1,
         (splitNlAux (splitNlAux cur a).2 b).2) := by
  induction a with
  | nil => intro cur b; simp [splitNlAux]
  | cons c cs ih =>
    intro cur b
    by_cases h : c = '\n'
    · simp [splitNlAux, h, ih]
    · simp [splitNlAux, h, ih]

theorem splitNlAux_no_newline {s : List Char} (h : '\n' ∉ s) :
    ∀ cur, splitNlAux cur s = ([], cur ++ s) := by
  induction s with
  | nil => intro cur; simp [splitNlAux]
  | cons c cs ih =>
    intro cur
    have hc : c ≠ '\n' := fun hc => h (by simp [hc])
    have hcs : '\n' ∉ cs := fun hm => h (by simp [hm])
    simp [splitNlAux, hc, ih hcs]

theorem splitNlAux_buffer_no_newline :
    ∀ (s cur : List Char), '\n' ∉ cur → '\n' ∉ (splitNlAux cur s).2 := by
  intro s
  induction s with
  | nil => intro cur h; simpa [splitNlAux] using h
  | cons c cs ih =>
    intro cur h
    by_cases hc : c = '\n'
    · simpa [splitNlAux, hc] using ih [] (by simp)
    · have h' : '\n' ∉ cur ++ [c] := by
        intro hm
        rcases List.mem_append.1 hm with hm | hm
        · exact h hm
        · simp only [List.mem_singleton] at hm
          exact hc hm.symm
      simpa [splitNlAux, hc] using ih (cur ++ [c]) h'

theorem splitNlAux_joinLines (ls : List (List Char)) (tail : List Char)
    (h : ∀ l ∈ ls, '\n' ∉ l) (ht : '\n' ∉ tail) :
    splitNlAux [] (joinLines ls ++ tail) = (ls, tail) := by
  induction ls with
  | nil => simpa [joinLines] using splitNlAux_no_newline ht []
  | cons l ls ih =>
    have hl : '\n' ∉ l := h l (by simp)
    have hrest : ∀ x ∈ ls, '\n' ∉ x := fun x hx => h x (by simp [hx])
    have h1 : joinLines (l :: ls) ++ tail = l ++ ('\n' :: (joinLines ls ++ tail)) := by
      simp [joinLines]
    rw [h1, splitNlAux_append l, splitNlAux_no_newline hl]
    simp [splitNlAux, ih hrest]

theorem utf8Push_append (a : List Nat) :
    ∀ (st b : List Nat),
      utf8Push st (a ++ b) =
        ((utf8Push (utf8Push st a).1 b).1,
         (utf8Push st a).2 ++ (utf8Push (utf8Push st a).1 b).2) := by
  induction a with
  | nil => intro st b; simp [utf8Push]
  | cons x xs ih => intro st b; simp [utf8Push, ih]

theorem utf8Push_one (n : Nat) (h1 : n < 0x80) :
    utf8Push [] [n] = ([], [Char.ofNat n]) := by
  have hlen : utf8Len n = 1 := by simp [utf8Len, h1]
  simp [utf8Push, utf8Step, utf8Fresh, hlen]

theorem utf8Push_two (n : Nat) (h1 : 0x80 ≤ n) (h2 : n < 0x800) :
    utf8Push [] [0xC0 + n / 64, 0x80 + n % 64] = ([], [Char.ofNat n]) := by
  have hlen : utf8Len (0xC0 + n / 64) = 2 := by
    simp only [utf8Len]
    rw [if_neg (by omega), if_neg (by omega), if_pos (by omega)]
  have hcont : isContByte (0x80 + n % 64) = true := by
    simp only [isContByte, Bool.and_eq_true, decide_eq_true_eq]
    omega
  have hval : seqVal [0xC0 + n / 64, 0x80 + n % 64] = n := by
    simp only [seqVal]; omega
  simp [utf8Push, utf8Step, utf8Fresh, hlen, hcont, hval]

theorem utf8Push_three (n : Nat) (h1 : 0x800 ≤ n) (h2 : n < 0x10000) :
    utf8Push [] [0xE0 + n / 4096, 0x80 + n / 64 % 64, 0x80 + n % 64]
      = ([], [Char.ofNat n]) := by
  have hlen : utf8Len (0xE0 + n / 4096) = 3 := by
    simp only [utf8Len]
    rw [if_neg (by omega), if_neg (by omega), if_neg (by omega), if_pos (by omega)]
  have hc1 : isContByte (0x80 + n / 64 % 64) = true := by
    simp only [isContByte, Bool.and_eq_true, decide_eq_true_eq]
    omega
  have hc2 : isContByte (0x80 + n % 64) = true := by
    simp only [isContByte, Bool.and_eq_true, decide_eq_true_eq]
    omega
  have hval : seqVal [0xE0 + n / 4096, 0x80 + n / 64 % 64, 0x80 + n % 64] = n := by
    simp only [seqVal]; omega
  simp [utf8Push, utf8Step, utf8Fresh, hlen, hc1, hc2, hval]

theorem utf8Push_four (n : Nat) (h1 : 0x10000 ≤ n) (h2 : n < 0x110000) :
    utf8Push [] [0xF0 + n / 262144, 0x80 + n / 4096 % 64, 0x80 + n / 64 % 64,
      0x80 + n % 64] = ([], [Char.ofNat n]) := by
  have hlen : utf8Len (0xF0 + n / 262144) = 4 := by
    simp only [utf8Len]
    rw [if_neg (by omega), if_neg (by omega), if_neg (by omega), if_neg (by omega),
      if_pos (by omega)]
  have hc1 : isContByte (0x80 + n / 4096 % 64) = true := by
    simp only [isContByte, Bool.and_eq_true, decide_eq_true_eq]
    omega
  have hc2 : isContByte (0x80 + n / 64 % 64) = true := by
    simp only [isContByte, Bool.and_eq_true, decide_eq_true_eq]
    omega
  have hc3 : isContByte (0x80 + n % 64) = true := by
    simp only [isContByte, Bool.and_eq_true, decide_eq_true_eq]
    omega
  have hval : seqVal [0xF0 + n / 262144, 0x80 + n / 4096 % 64, 0x80 + n / 64 % 64,
      0x80 + n % 64] = n := by
    simp only [seqVal]; omega
  simp [utf8Push, utf8Step, utf8Fresh, hlen, hc1, hc2, hc3, hval]

theorem char_toNat_lt (c : Char) : c.toNat < 0x110000 := by
  have h := c.valid
  simp only [UInt32.isValidChar, Nat.isValidChar] at h
  rcases h with h | ⟨h1, h2⟩ <;> simp [Char.toNat] <;> omega

theorem utf8Push_encodeChar (c : Char) :
    utf8Push [] (utf8EncodeChar c) = ([], [c]) := by
  have hofNat := Char.ofNat_toNat c
  have hup := char_toNat_lt c
  rcases Nat.lt_or_ge c.toNat 0x80 with h1 | h1
  · rw [show utf8EncodeChar c = [c.toNat] by simp [utf8EncodeChar, h1],
      utf8Push_one _ h1, hofNat]
  · rcases Nat.lt_or_ge c.toNat 0x800 with h2 | h2
    · rw [show utf8EncodeChar c = [0xC0 + c.toNat / 64, 0x80 + c.toNat % 64] by
        simp only [utf8EncodeChar]; rw [if_neg (by omega), if_pos h2],
        utf8Push_two _ h1 h2, hofNat]
    · rcases Nat.lt_or_ge c.toNat 0x10000 with h3 | h3
      · rw [show utf8EncodeChar c = [0xE0 + c.toNat / 4096, 0x80 + c.toNat / 64 % 64,
            0x80 + c.toNat % 64] by
          simp only [utf8EncodeChar]
          rw [if_neg (by omega), if_neg (by omega), if_pos h3],
          utf8Push_three _ h2 h3, hofNat]
      · rw [show utf8EncodeChar c = [0xF0 + c.toNat / 262144,
            0x80 + c.toNat / 4096 % 64, 0x80 + c.toNat / 64 % 64,
            0x80 + c.toNat % 64] by
          simp only [utf8EncodeChar]
          rw [if_neg (by omega), if_neg (by omega), if_neg (by omega)],
          utf8Push_four _ h3 hup, hofNat]

theorem utf8Push_encode (s : List Char) :
    utf8Push [] (utf8Encode s) = ([], s) := by
  induction s with
  | nil => simp [utf8Encode, utf8Push]
  | cons c cs ih =>
    have h : utf8Encode (c :: cs) = utf8EncodeChar c ++ utf8Encode cs := by
      simp [utf8Encode]
    rw [h, utf8Push_append, utf8Push_encodeChar, ih]
    simp

theorem feedChunk_buffer_no_newline (frag : List Char → Option Json) (st : DecSt)
    (bytes : List Nat) : '\n' ∉ (feedChunk frag st bytes).1.buffer := by
  simp only [feedChunk, splitNl]
  exact splitNlAux_buffer_no_newline _ [] (by simp)

theorem feedChunk_append (frag : List Char → Option Json) (st : DecSt)
    (a b : List Nat) :
    feedChunk frag st (a ++ b) =
      ((feedChunk frag (feedChunk frag st a).1 b).1,
       (feedChunk frag st a).2 ++ (feedChunk frag (feedChunk frag st a).1 b).2) := by
  simp only [feedChunk, splitNl, utf8Push_append a]
  have hmid : '\n' ∉ (splitNlAux [] (st.buffer ++ (utf8Push st.pending a).2)).2 :=
    splitNlAux_buffer_no_newline _ [] (by simp)
  rw [show st.buffer ++ ((utf8Push st.pending a).2 ++ (utf8Push (utf8Push st.pending a).1 b).2)
      = (st.buffer ++ (utf8Push st.pending a).2) ++ (utf8Push (utf8Push st.pending a).1 b).2
    from by simp, splitNlAux_append]
  rw [splitNlAux_append ((splitNlAux [] (st.buffer ++ (utf8Push st.pending a).2)).2)]
  rw [splitNlAux_no_newline hmid]
  simp

theorem feedChunks_flatten (frag : List Char → Option Json) (chunks : List (List Nat)) :
    ∀ st : DecSt, '\n' ∉ st.buffer →
      feedChunks frag st chunks = feedChunk frag st chunks.flatten := by
  induction chunks with
  | nil =>
    intro st h
    simp only [feedChunks, feedChunk, List.flatten_nil, utf8Push, splitNl, List.append_nil]
    rw [splitNlAux_no_newline h]
    simp
  | cons c cs ih =>
    intro st h
    rw [List.flatten_cons, feedChunk_append frag st c cs.flatten]
    simp only [feedChunks]
    rw [ih _ (feedChunk_buffer_no_newline frag st c)]

/-- Decoding the bytes of `N` newline-terminated lines plus an
unterminated tail emits exactly the fragments of the complete lines;
the tail stays in the buffer. -/
theorem feedChunk_encode (frag : List Char → Option Json) (lines : List (List Char))
    (tail : List Char) (h : ∀ l ∈ lines, '\n' ∉ l) (ht : '\n' ∉ tail) :
    feedChunk frag initDecSt (utf8Encode (joinLines lines ++ tail))
      = (⟨[], tail⟩, lines.filterMap frag) := by
  simp only [feedChunk, initDecSt, splitNl, utf8Push_encode]
  rw [show ([] : List Char) ++ (joinLines lines ++ tail) = joinLines lines ++ tail from by simp,
    splitNlAux_joinLines lines tail h ht]

/-! ## Helper lemmas shared by the claim theorems -/

/-- Feeding any chunk partition of the bytes of newline-terminated lines
emits exactly the per-line fragments, in line order. -/
theorem feedChunks_decode_lines (frag : List Char → Option Json)
    (chunks : List (List Nat)) (lines : List (List Char))
    (hbytes : chunks.flatten = utf8Encode (joinLines lines))
    (hnl : ∀ l ∈ lines, '\n' ∉ l) :
    (feedChunks frag initDecSt chunks).2 = lines.filterMap frag := by
  have he := feedChunk_encode frag lines [] hnl (by simp)
  rw [List.append_nil] at he
  rw [feedChunks_flatten frag chunks initDecSt (by simp [initDecSt]), hbytes, he]

theorem lineFragOllama_none_of_parse_none {l : List Char}
    (h : jsonParse l = none) : lineFragOllama l = none := by
  by_cases ht : jsTrim l = [] <;> simp [lineFragOllama, ht, h]

theorem lineFragZai_none_of_parse_none {l : List Char}
    (h : jsonParse ((jsTrim l).drop 6) = none) : lineFragZai l = none := by
  simp only [lineFragZai]
  split_ifs <;> simp [h]

theorem applyFragment_pending (st : GenOutSt) (ev : List Char × Nat) :
    (applyFragment st ev).pending = st.pending ++ ev.1 := by
  by_cases h : 50 ≤ ev.2 - st.lastUpdate <;> simp [applyFragment, h]

theorem runFragments_pending (evs : List (List Char × Nat)) :
    ∀ st : GenOutSt, (runFragments st evs).pending = st.pending ++ fragsConcat evs := by
  induction evs with
  | nil => intro st; simp [runFragments, fragsConcat]
  | cons e es ih =>
    intro st
    simp only [runFragments, List.foldl_cons] at *
    rw [ih (applyFragment st e), applyFragment_pending]
    simp [fragsConcat]

theorem runFragments_visible_le_pending (evs : List (List Char × Nat)) :
    ∀ st : GenOutSt, st.outputText <+: st.pending →
      (runFragments st evs).outputText <+: (runFragments st evs).pending := by
  induction evs with
  | nil => intro st h; simpa [runFragments] using h
  | cons e es ih =>
    intro st h
    simp only [runFragments, List.foldl_cons] at *
    refine ih (applyFragment st e) ?_
    by_cases hc : 50 ≤ e.2 - st.lastUpdate
    · simp [applyFragment, hc]
    · simp only [applyFragment, if_neg hc]
      exact h.trans (List.prefix_append st.pending e.1)

/-! ## Claim theorems -/

/-- Claim C1, counterexample: the claim maps every non-2xx status other
than 401/403 to disconnected, but `checkConnection` returns connected
(`true`) for HTTP 400, a non-2xx status. -/
theorem c1_probe_400_counterexample :
    checkConnection "k".data (FetchResult.status 400) = true ∧ resOk 400 = false := by
  decide

/-- Claim C1 as amended: for a non-blank key, an ok (2xx) status and
also 400 and 429 yield connected; 401 yields disconnected; every other
status (403 included) and any network exception yields disconnected. -/
theorem c1_probe_mapping_amended (key : List Char) (res : FetchResult)
    (h : jsTrim key ≠ []) : checkConnection key res = probeSpecAmended res := by
  cases res <;> simp [checkConnection, probeSpecAmended, h]

theorem c1_probe_mapping_amended_witness :
    jsTrim "k".data ≠ [] ∧
      checkConnection "k".data (FetchResult.status 200)
        = probeSpecAmended (FetchResult.status 200) :=
  ⟨by decide, c1_probe_mapping_amended "k".data (FetchResult.status 200) (by decide)⟩

/-- Claim C2, counterexample: for whitespace-only input (with a valid
model and API key) `handleGenerate` returns silently — a no-op that
surfaces no `ValidationError` (it is not an `errorSurfaced` outcome);
no network call is made. -/
theorem c2_empty_input_counterexample :
    handleGenerateGate "   ".data "glm-4.5-flash".data "sk-key".data = StartResult.noop ∧
    startNetworkCalls
      (handleGenerateGate "   ".data "glm-4.5-flash".data "sk-key".data) = 0 := by
  decide

/-- Claim C2 as amended: a request whose input is empty after trimming
or whose model is empty makes `start` a synchronous silent no-op — no
error of any kind is surfaced and no network call is attempted. -/
theorem c2_empty_input_amended (input model apiKey : List Char)
    (h : jsTrim input = [] ∨ model = []) :
    handleGenerateGate input model apiKey = StartResult.noop ∧
    startNetworkCalls (handleGenerateGate input model apiKey) = 0 := by
  rcases h with h | h <;> simp [handleGenerateGate, h, startNetworkCalls]

theorem c2_empty_input_amended_witness :
    (jsTrim "   ".data = [] ∨ "glm-4.5-flash".data = ([] : List Char)) ∧
      handleGenerateGate "   ".data "glm-4.5-flash".data "sk-key".data
        = StartResult.noop ∧
      startNetworkCalls
        (handleGenerateGate "   ".data "glm-4.5-flash".data "sk-key".data) = 0 :=
  ⟨Or.inl (by decide),
    c2_empty_input_amended "   ".data "glm-4.5-flash".data "sk-key".data
      (Or.inl (by decide))⟩

/-- Claim C3, failing run: clicking Generate starts a transport, and
Cmd/Ctrl+Enter while it is streaming starts a second one — the keydown
path neither blocks nor aborts the previous controller, so two live
transports coexist, violating the at-most-one-live-transport
invariant. -/
theorem c3_two_live_transports :
    (uiRun initSessSt [UiEvent.clickGenerate, UiEvent.keyGenerate]).liveTransports
      = 2 := by
  decide

/-- Claim C4, counterexample: a failed probe run of the supervisor
schedules no retry at all — the list of scheduled retry delays is empty,
so no escalating-delay sequence exists. -/
theorem c4_no_retry_counterexample :
    (checkApiKeyRun "k".data false).2.2 = [] ∧
    (checkApiKeyRun "k".data false).1 = ConnState.disconnected := by
  decide

/-- Claim C4 as amended: the supervisor performs at most one probe per
trigger (app start or manual refresh) and never schedules an automatic
retry; the resulting state is simply the outcome of that single probe
(disconnected for a blank key, without probing). -/
theorem c4_supervisor_amended (key : List Char) (ok : Bool) :
    (checkApiKeyRun key ok).2.2 = [] ∧
    (checkApiKeyRun key ok).2.1 ≤ 1 ∧
    (checkApiKeyRun key ok).1 =
      (if jsTrim key = [] then ConnState.disconnected
       else if ok then ConnState.connected else ConnState.disconnected) := by
  by_cases h : jsTrim key = [] <;> cases ok <;> simp [checkApiKeyRun, h]

/-- Claim C5, counterexample: fragment `"a"` arrives at t=100 (flushed),
fragment `"b"` at t=120 (within the 50ms throttle window, not flushed);
a failure then leaves the visible `outputText` at `"a"` even though the
accumulator holds `"ab"` — the yielded fragment `"b"` is missing from
the user-visible output. -/
theorem c5_failure_drops_unflushed_counterexample :
    (finishError (runFragments initGenOut [("a".data, 100), ("b".data, 120)])).outputText
      = "a".data ∧
    (runFragments initGenOut [("a".data, 100), ("b".data, 120)]).pending
      = "ab".data := by
  decide

/-- Claim C5 as amended: cancellation (the `AbortError` branch and
`handleStop`) and normal completion flush the accumulator, so the
visible output then contains every yielded fragment; the internal
accumulator always preserves all yielded fragments in order; on a
mid-stream failure the visible output is not cleared and still equals a
prefix of the yielded fragments (everything flushed up to the last
throttled update), but fragments arriving within the final throttle
window are absent from it. -/
theorem c5_preservation_amended (evs : List (List Char × Nat)) :
    (finishAbort (runFragments initGenOut evs)).outputText = fragsConcat evs ∧
    (finishComplete (runFragments initGenOut evs)).outputText = fragsConcat evs ∧
    (runFragments initGenOut evs).pending = fragsConcat evs ∧
    (finishError (runFragments initGenOut evs)).outputText <+: fragsConcat evs := by
  have hp := runFragments_pending evs initGenOut
  rw [show initGenOut.pending = [] from rfl, List.nil_append] at hp
  refine ⟨by simp [finishAbort, hp], by simp [finishComplete, hp], hp, ?_⟩
  have hv := runFragments_visible_le_pending evs initGenOut (by simp [initGenOut])
  rw [hp] at hv
  simpa [finishError] using hv

/-- Claim C6: for every byte sequence forming newline-terminated
protocol lines whose per-line parse yields the fragments `fs`, and for
every partition of those bytes into chunks — including splits mid-line,
mid-UTF-8-sequence, or one byte at a time — the decoder emits exactly
`fs`, in order, independent of the partition. (`frag` ranges over the
per-line parsers, `lineFragZai` and `lineFragOllama`; the terminator is
the final newline-terminated line, e.g. `data: [DONE]` with
`frag = none` or a `done:true` line.) -/
theorem c6_decoder_chunking_invariance (frag : List Char → Option Json)
    (chunks : List (List Nat)) (lines : List (List Char)) (fs : List Json)
    (hbytes : chunks.flatten = utf8Encode (joinLines lines))
    (hnl : ∀ l ∈ lines, '\n' ∉ l)
    (hfrag : lines.filterMap frag = fs) :
    (feedChunks frag initDecSt chunks).2 = fs := by
  rw [feedChunks_decode_lines frag chunks lines hbytes hnl, hfrag]

theorem c6_decoder_chunking_invariance_witness :
    ([utf8Encode "\x7b\"response\":\"Hel".data,
      utf8Encode "lo\",\"done\":false\x7d\n\x7b\"response\":\"!\",\"done\":true\x7d\n".data].flatten
      = utf8Encode (joinLines ["\x7b\"response\":\"Hello\",\"done\":false\x7d".data,
          "\x7b\"response\":\"!\",\"done\":true\x7d".data])) ∧
    (feedChunks lineFragOllama initDecSt
      [utf8Encode "\x7b\"response\":\"Hel".data,
       utf8Encode "lo\",\"done\":false\x7d\n\x7b\"response\":\"!\",\"done\":true\x7d\n".data]).2
      = [Json.str "Hello".data, Json.str "!".data] :=
  ⟨by rfl,
    c6_decoder_chunking_invariance lineFragOllama
      [utf8Encode "\x7b\"response\":\"Hel".data,
       utf8Encode "lo\",\"done\":false\x7d\n\x7b\"response\":\"!\",\"done\":true\x7d\n".data]
      ["\x7b\"response\":\"Hello\",\"done\":false\x7d".data,
       "\x7b\"response\":\"!\",\"done\":true\x7d".data]
      [Json.str "Hello".data, Json.str "!".data]
      (by rfl) (by decide) (by rfl)⟩

/-- Claim C7: a syntactically invalid JSON line between two valid framed
lines yields zero fragments itself and leaves the fragments of the
surrounding valid lines unchanged, in both framings (the decoders are
total functions — the `catch` turns the parse failure into a skip, never
an error). -/
theorem c7_invalid_json_line_skipped
    (chunksA chunksB : List (List Nat))
    (preA badA postA preB badB postB : List Char) (f1 f2 g1 g2 : Json)
    (hA : chunksA.flatten = utf8Encode (joinLines [preA, badA, postA]))
    (hAnl : ∀ l ∈ [preA, badA, postA], '\n' ∉ l)
    (hA1 : lineFragOllama preA = some f1)
    (hAbad : jsonParse badA = none)
    (hA2 : lineFragOllama postA = some f2)
    (hB : chunksB.flatten = utf8Encode (joinLines [preB, badB, postB]))
    (hBnl : ∀ l ∈ [preB, badB, postB], '\n' ∉ l)
    (hB1 : lineFragZai preB = some g1)
    (hBbad : jsonParse ((jsTrim badB).drop 6) = none)
    (hB2 : lineFragZai postB = some g2) :
    (feedChunks lineFragOllama initDecSt chunksA).2 = [f1, f2] ∧
    (feedChunks lineFragZai initDecSt chunksB).2 = [g1, g2] := by
  constructor
  · rw [feedChunks_decode_lines _ _ _ hA hAnl]
    simp [List.filterMap_cons, hA1, lineFragOllama_none_of_parse_none hAbad, hA2]
  · rw [feedChunks_decode_lines _ _ _ hB hBnl]
    simp [List.filterMap_cons, hB1, lineFragZai_none_of_parse_none hBbad, hB2]

theorem c7_invalid_json_line_skipped_witness :
    jsonParse "not json".data = none ∧
    (feedChunks lineFragOllama initDecSt
      [utf8Encode (joinLines ["\x7b\"response\":\"ok\",\"done\":false\x7d".data,
        "not json".data, "\x7b\"response\":\"go\",\"done\":true\x7d".data])]).2
      = [Json.str "ok".data, Json.str "go".data] ∧
    (feedChunks lineFragZai initDecSt
      [utf8Encode (joinLines
        ["data: \x7b\"choices\":[\x7b\"delta\":\x7b\"content\":\"x\"\x7d\x7d]\x7d".data,
         "data: \x7bbroken".data,
         "data: \x7b\"choices\":[\x7b\"delta\":\x7b\"content\":\"y\"\x7d\x7d]\x7d".data])]).2
      = [Json.str "x".data, Json.str "y".data] := by
  have h := c7_invalid_json_line_skipped
    [utf8Encode (joinLines ["\x7b\"response\":\"ok\",\"done\":false\x7d".data,
      "not json".data, "\x7b\"response\":\"go\",\"done\":true\x7d".data])]
    [utf8Encode (joinLines
      ["data: \x7b\"choices\":[\x7b\"delta\":\x7b\"content\":\"x\"\x7d\x7d]\x7d".data,
       "data: \x7bbroken".data,
       "data: \x7b\"choices\":[\x7b\"delta\":\x7b\"content\":\"y\"\x7d\x7d]\x7d".data])]
    "\x7b\"response\":\"ok\",\"done\":false\x7d".data "not json".data
    "\x7b\"response\":\"go\",\"done\":true\x7d".data
    "data: \x7b\"choices\":[\x7b\"delta\":\x7b\"content\":\"x\"\x7d\x7d]\x7d".data
    "data: \x7bbroken".data
    "data: \x7b\"choices\":[\x7b\"delta\":\x7b\"content\":\"y\"\x7d\x7d]\x7d".data
    (Json.str "ok".data) (Json.str "go".data) (Json.str "x".data) (Json.str "y".data)
    (by rfl) (by decide) (by rfl) (by rfl) (by rfl)
    (by rfl) (by decide) (by rfl) (by rfl) (by rfl)
  exact ⟨by rfl, h.1, h.2⟩

/-- Claim C9: when the extracted text field of a frame is present, the
decoder emits it only when it is truthy — a present-but-falsy value
(such as the empty string) yields zero fragments — in both the SSE
(`choices[0].delta.content`) and the whole-JSON-line (`response`)
framings. -/
theorem c9_truthiness_gates_emission
    (lz lo : List Char) (j j' v v' : Json)
    (hz1 : jsTrim lz ≠ []) (hz2 : jsTrim lz ≠ sseDone)
    (hz3 : sseDataTag.isPrefixOf (jsTrim lz) = true)
    (hz4 : jsonParse ((jsTrim lz).drop 6) = some j)
    (hz5 : sseContent j = some v)
    (ho1 : jsTrim lo ≠ [])
    (ho2 : jsonParse lo = some j')
    (ho3 : j'.getField "response".data = some v') :
    lineFragZai lz = (if v.truthy then some v else none) ∧
    lineFragOllama lo = (if v'.truthy then some v' else none) := by
  constructor
  · simp [lineFragZai, hz1, hz2, hz3, hz4, hz5]
  · simp [lineFragOllama, ho1, ho2, ho3]

theorem c9_truthiness_gates_emission_witness :
    jsonParse ((jsTrim "data: \x7b\"choices\":[\x7b\"delta\":\x7b\"content\":\"\"\x7d\x7d]\x7d".data).drop 6)
      = some (Json.obj [("choices".data,
          Json.arr [Json.obj [("delta".data,
            Json.obj [("content".data, Json.str [])])]])]) ∧
    lineFragZai "data: \x7b\"choices\":[\x7b\"delta\":\x7b\"content\":\"\"\x7d\x7d]\x7d".data = none ∧
    lineFragOllama "\x7b\"response\":\"\",\"done\":false\x7d".data = none := by
  have h := c9_truthiness_gates_emission
    "data: \x7b\"choices\":[\x7b\"delta\":\x7b\"content\":\"\"\x7d\x7d]\x7d".data
    "\x7b\"response\":\"\",\"done\":false\x7d".data
    (Json.obj [("choices".data,
      Json.arr [Json.obj [("delta".data,
        Json.obj [("content".data, Json.str [])])]])])
    (Json.obj [("response".data, Json.str []), ("done".data, Json.boolean false)])
    (Json.str []) (Json.str [])
    (by decide) (by decide) (by rfl) (by rfl) (by rfl)
    (by decide) (by rfl) (by rfl)
  exact ⟨by rfl, by simpa using h.1, by simpa using h.2⟩

/-- Claim C10: bytes of a final line not terminated by a newline are
never parsed or emitted: the decoder's output is exactly the fragments
of the newline-terminated lines, and when the byte source is exhausted
the unterminated tail sits in the residual line buffer, which is
discarded without a final flush (after `done`, the loop exits and the
buffer is never read). -/
theorem c10_trailing_data_discarded (frag : List Char → Option Json)
    (chunks : List (List Nat)) (lines : List (List Char)) (tail : List Char)
    (hbytes : chunks.flatten = utf8Encode (joinLines lines ++ tail))
    (hnl : ∀ l ∈ lines, '\n' ∉ l) (ht : '\n' ∉ tail) :
    (feedChunks frag initDecSt chunks).2 = lines.filterMap frag ∧
    (feedChunks frag initDecSt chunks).1.buffer = tail := by
  rw [feedChunks_flatten frag chunks initDecSt (by simp [initDecSt]), hbytes,
    feedChunk_encode frag lines tail hnl ht]
  exact ⟨rfl, rfl⟩

theorem c10_trailing_data_discarded_witness :
    ('\n' ∉ "\x7b\"response\":\"x\",\"done\":true\x7d".data) ∧
    (feedChunks lineFragOllama initDecSt
      [utf8Encode (joinLines ["\x7b\"response\":\"ok\",\"done\":false\x7d".data]
        ++ "\x7b\"response\":\"x\",\"done\":true\x7d".data)]).2
      = [Json.str "ok".data] ∧
    (feedChunks lineFragOllama initDecSt
      [utf8Encode (joinLines ["\x7b\"response\":\"ok\",\"done\":false\x7d".data]
        ++ "\x7b\"response\":\"x\",\"done\":true\x7d".data)]).1.buffer
      = "\x7b\"response\":\"x\",\"done\":true\x7d".data := by
  have h := c10_trailing_data_discarded lineFragOllama
    [utf8Encode (joinLines ["\x7b\"response\":\"ok\",\"done\":false\x7d".data]
      ++ "\x7b\"response\":\"x\",\"done\":true\x7d".data)]
    ["\x7b\"response\":\"ok\",\"done\":false\x7d".data]
    "\x7b\"response\":\"x\",\"done\":true\x7d".data
    (by rfl) (by decide) (by decide)
  exact ⟨by decide, h.1.trans (by rfl), h.2⟩

/-- Claim C8: the session maps non-success statuses to distinct,
user-actionable messages: 401 to the invalid-API-key message; 429 — or
any status other than 401 whose error body matches the quota/balance
pattern — to the backend message verbatim followed by the remediation
links; and 404 on the local-inference (Ollama) family to a message
naming the model; the three messages are pairwise distinct for every
backend message and model name. -/
theorem c8_error_messages_distinct (msg model : String) :
    zaiHttpErrorMsg 401 msg = zaiAuthMsg ∧
    zaiHttpErrorMsg 429 msg = msg ++ zaiRateSuffix ∧
    (∀ status : Nat, status ≠ 401 → quotaPattern msg = true →
      zaiHttpErrorMsg status msg = msg ++ zaiRateSuffix) ∧
    ollamaHttpErrorMsg 404 model = ollamaModel404Msg model ∧
    (ollamaModel404Msg model).data
      = "Model \"".data ++ model.data
        ++ "\" not found. Please select another model.".data ∧
    zaiAuthMsg ≠ msg ++ zaiRateSuffix ∧
    zaiAuthMsg ≠ ollamaModel404Msg model ∧
    msg ++ zaiRateSuffix ≠ ollamaModel404Msg model := by
  refine ⟨by simp [zaiHttpErrorMsg], by simp [zaiHttpErrorMsg], ?_, ?_, ?_, ?_, ?_, ?_⟩
  · intro status hs hq
    simp [zaiHttpErrorMsg, hs, hq]
  · simp [ollamaHttpErrorMsg]
  · rfl
  · intro h
    have hl := congrArg String.length h
    rw [String.length_append] at hl
    have h1 : zaiAuthMsg.length = 53 := rfl
    have h2 : zaiRateSuffix.length = 98 := rfl
    omega
  · intro h
    have h1 : zaiAuthMsg.data.head? = some 'I' := rfl
    have h2 : (ollamaModel404Msg model).data.head? = some 'M' := rfl
    rw [h] at h1
    exact absurd (h1.symm.trans h2) (by decide)
  · intro h
    have h1 : (msg ++ zaiRateSuffix).data.getLast? = some 'e' := by
      rw [show (msg ++ zaiRateSuffix).data = msg.data ++ zaiRateSuffix.data from rfl,
        List.getLast?_append_of_ne_nil _ (by decide)]
      rfl
    have h2 : (ollamaModel404Msg model).data.getLast? = some '.' := by
      rw [show (ollamaModel404Msg model).data
          = ("Model \"".data ++ model.data)
            ++ "\" not found. Please select another model.".data from rfl,
        List.getLast?_append_of_ne_nil _ (by decide)]
      rfl
    rw [h] at h1
    exact absurd (h1.symm.trans h2) (by decide)

theorem c8_error_messages_distinct_witness :
    quotaPattern "Insufficient balance or no resource package. Please recharge." = true ∧
    zaiHttpErrorMsg 402 "Insufficient balance or no resource package. Please recharge."
      = "Insufficient balance or no resource package. Please recharge." ++ zaiRateSuffix ∧
    ollamaHttpErrorMsg 404 "llama3" = ollamaModel404Msg "llama3" :=
  ⟨by decide,
    (c8_error_messages_distinct
      "Insufficient balance or no resource package. Please recharge." "llama3").2.2.1
      402 (by decide) (by decide),
    (c8_error_messages_distinct
      "Insufficient balance or no resource package. Please recharge." "llama3").2.2.2.1⟩

end PromptBuilder
